import Mathlib

/-!
Verification of the `mqtt-client` subscriber program (`src/sub/main.rs`)
against its natural-language specification.

The Rust program is embedded shallowly:
  * `process::exit(1)` paths are modelled as `Option.none` / `TlsOutcome.fatal`;
  * the QoS-list normalization (`actual_qos`, main.rs lines 141-167) becomes
    the function `actual_qos` below;
  * the TLS-setup block (main.rs lines 74-136) becomes `setupTransport`,
    with file reads and PEM parsing abstracted by an oracle
    `String → Option PemFile`;
  * the event loop (main.rs lines 173-199) becomes a fold `runLoop` over a
    finite trace of poll results, emitting the observable `Act`s the loop
    performs, with `runLoopExits` recording whether the loop `break`s;
  * `String::from_utf8_lossy` on the payload becomes `utf8Lossy` on byte
    lists (Unicode "maximal subpart" replacement, as in Rust std).
-/

/-- MQTT delivery-guarantee levels (`rumqttc::QoS`). -/
inductive QoS
  | atMostOnce
  | atLeastOnce
  | exactlyOnce
deriving DecidableEq, Repr

/-- The `match` arms at main.rs lines 143-151 / 157-165: a configured integer
is mapped to a QoS level, and any other value hits `process::exit(1)`,
modelled as `none`. -/
def mapQoS (q : Int) : Option QoS :=
  if q = 0 then some QoS.atMostOnce
  else if q = 1 then some QoS.atLeastOnce
  else if q = 2 then some QoS.exactlyOnce
  else none

/-- The `config.qos.iter().map(...).collect()` of main.rs lines 156-166:
every element is validated and mapped; the first invalid element aborts the
process (`none`). -/
def mapQoSList : List Int → Option (List QoS)
  | [] => some []
  | q :: rest =>
    match mapQoS q with
    | none => none
    | some v =>
      match mapQoSList rest with
      | none => none
      | some vs => some (v :: vs)

/-- The QoS normalizer `actual_qos` of main.rs lines 141-167, verbatim
branch structure:
if `qos.len() < topics.len() && !qos.is_empty()` replicate the mapped
`qos[0]` over all topics; else if `qos.is_empty() && !topics.is_empty()`
default every topic to `AtMostOnce`; else map the whole `qos` list. -/
def actual_qos (topics : List String) (qos : List Int) : Option (List QoS) :=
  if qos.length < topics.length ∧ qos ≠ [] then
    (mapQoS qos.headI).map (fun d => List.replicate topics.length d)
  else if qos = [] ∧ topics ≠ [] then
    some (List.replicate topics.length QoS.atMostOnce)
  else
    mapQoSList qos

/-- Total version of the integer-to-QoS mapping, used to state theorems
about configurations whose values are already known to lie in 0, 1, 2. -/
def qosOfInt (q : Int) : QoS :=
  if q = 1 then QoS.atLeastOnce
  else if q = 2 then QoS.exactlyOnce
  else QoS.atMostOnce

/-- The sub-list of `qos` the program actually validates: only `qos[0]`
in the replication branch (`0 < Q < T`), the whole list otherwise. -/
def validatedSlice (topics : List String) (qos : List Int) : List Int :=
  if qos.length < topics.length ∧ qos ≠ [] then qos.take 1 else qos

/-- Per-topic subscription pairing of `subscribe_topics` (main.rs lines
31-41): topic `i` is subscribed with `qos_values.get(i)` or `AtMostOnce`
when the QoS list is shorter (`.copied().unwrap_or(QoS::AtMostOnce)`).
Subscription transport errors are external; the pairing is the embedded
behavior. -/
def subscribe_topics (topics : List String) (qos_values : List QoS) :
    List (String × QoS) :=
  topics.enum.map (fun it => (it.2, qos_values.getD it.1 QoS.atMostOnce))

/-- Is `b` a UTF-8 continuation byte (0x80-0xBF)? -/
def isCont (b : Nat) : Bool := 128 ≤ b && b ≤ 191

/-- Valid range of the second byte of a multi-byte UTF-8 sequence, which
depends on the leading byte (0xE0, 0xED, 0xF0, 0xF4 restrict it). -/
def validSecond (lead b1 : Nat) : Bool :=
  if lead = 224 then 160 ≤ b1 && b1 ≤ 191
  else if lead = 237 then 128 ≤ b1 && b1 ≤ 159
  else if lead = 240 then 144 ≤ b1 && b1 ≤ 191
  else if lead = 244 then 128 ≤ b1 && b1 ≤ 143
  else isCont b1

/-- UTF-8 encoding of U+FFFD REPLACEMENT CHARACTER. -/
def replBytes : List Nat := [239, 191, 189]

/-- `String::from_utf8_lossy` viewed at the byte level: valid UTF-8
sequences are copied through; each maximal invalid subpart is replaced by
the UTF-8 bytes of U+FFFD (Rust/Unicode "substitution of maximal
subparts"); an incomplete valid prefix at end of input becomes a single
replacement. -/
def utf8Lossy : List Nat → List Nat
  | [] => []
  | b :: rest =>
    if b < 128 then b :: utf8Lossy rest
    else if 194 ≤ b && b ≤ 223 then
      match rest with
      | [] => replBytes
      | b1 :: rest1 =>
        if isCont b1 then b :: b1 :: utf8Lossy rest1
        else replBytes ++ utf8Lossy (b1 :: rest1)
    else if 224 ≤ b && b ≤ 239 then
      match rest with
      | [] => replBytes
      | b1 :: rest1 =>
        if validSecond b b1 then
          match rest1 with
          | [] => replBytes
          | b2 :: rest2 =>
            if isCont b2 then b :: b1 :: b2 :: utf8Lossy rest2
            else replBytes ++ utf8Lossy (b2 :: rest2)
        else replBytes ++ utf8Lossy (b1 :: rest1)
    else if 240 ≤ b && b ≤ 244 then
      match rest with
      | [] => replBytes
      | b1 :: rest1 =>
        if validSecond b b1 then
          match rest1 with
          | [] => replBytes
          | b2 :: rest2 =>
            if isCont b2 then
              match rest2 with
              | [] => replBytes
              | b3 :: rest3 =>
                if isCont b3 then b :: b1 :: b2 :: b3 :: utf8Lossy rest3
                else replBytes ++ utf8Lossy (b3 :: rest3)
            else replBytes ++ utf8Lossy (b2 :: rest2)
        else replBytes ++ utf8Lossy (b1 :: rest1)
    else replBytes ++ utf8Lossy rest
termination_by l => l.length
decreasing_by all_goals simp +arith [List.length]

/-- Boolean list-prefix test used by the substring test below. -/
def isPrefixOfB : List Char → List Char → Bool
  | [], _ => true
  | _ :: _, [] => false
  | a :: as, b :: bs => a = b && isPrefixOfB as bs

/-- Does `needle` occur as a contiguous run inside the list? -/
def containsSubB (needle : List Char) : List Char → Bool
  | [] => needle.isEmpty
  | c :: rest => isPrefixOfB needle (c :: rest) || containsSubB needle rest

/-- Rust `str::contains` on strings: `hay.contains(needle)`. -/
def strContains (hay needle : String) : Bool :=
  containsSubB needle.toList hay.toList

/-- The packet shapes the event loop distinguishes (main.rs lines 177-186):
an incoming `Publish` (its topic, payload bytes and QoS), an incoming
`ConnAck`, and everything else. -/
inductive Packet
  | publish (topic : String) (payload : List Nat) (q : QoS)
  | connAck
  | other
deriving DecidableEq, Repr

/-- The events the loop distinguishes: incoming packets, the outgoing
`Disconnect` acknowledgment (the only `break`), and other outgoing events. -/
inductive Event
  | incoming (p : Packet)
  | outgoingDisconnect
  | outgoingOther
deriving DecidableEq, Repr

/-- One result of `eventloop.poll().await`: `ok` an event, or `err` with
the error's display string (the loop classifies it by substring). -/
inductive PollResult
  | ok (e : Event)
  | err (msg : String)
deriving DecidableEq, Repr

/-- The externally observable actions the program performs, in order.
`unsubscribe` and `disconnect` never occur in the embedded program; they
are present so that their absence is statable. -/
inductive Act
  | subscribe (topic : String) (q : QoS)
  | surface (topic : String) (payload : List Nat) (q : QoS)
  | printConnected
  | printDisconnected
  | logReconnecting
  | logError (msg : String)
  | sleep (secs : Nat)
  | unsubscribe (topic : String)
  | disconnect
  | printDone
deriving DecidableEq, Repr

/-- One iteration of the event loop body (main.rs lines 174-198): the
actions it emits and whether it `break`s. A `Publish` surfaces topic,
lossy-decoded payload and QoS (lines 178-180); `ConnAck` logs a
connection line; the outgoing-`Disconnect` ack logs and breaks; an error
whose string contains "disconnected" logs and sleeps 5 seconds, any other
error logs and sleeps 1 second; nothing else emits. -/
def loopStep (r : PollResult) : List Act × Bool :=
  match r with
  | PollResult.ok (Event.incoming (Packet.publish t p q)) =>
      ([Act.surface t (utf8Lossy p) q], false)
  | PollResult.ok (Event.incoming Packet.connAck) =>
      ([Act.printConnected], false)
  | PollResult.ok (Event.incoming Packet.other) => ([], false)
  | PollResult.ok Event.outgoingDisconnect => ([Act.printDisconnected], true)
  | PollResult.ok Event.outgoingOther => ([], false)
  | PollResult.err e =>
      if strContains e "disconnected" then
        ([Act.logReconnecting, Act.sleep 5], false)
      else
        ([Act.logError e, Act.sleep 1], false)

/-- Run the event loop over a finite trace of poll results, collecting the
emitted actions; the loop stops consuming at the first `break`. -/
def runLoop : List PollResult → List Act
  | [] => []
  | r :: rest =>
    if (loopStep r).2 then (loopStep r).1
    else (loopStep r).1 ++ runLoop rest

/-- Whether the event loop `break`s (exits) somewhere within the trace. -/
def runLoopExits : List PollResult → Bool
  | [] => false
  | r :: rest => if (loopStep r).2 then true else runLoopExits rest

/-- Abstraction of one PEM file on disk as the TLS block consumes it:
per-certificate success of `RootCertStore::add` when used as a CA bundle,
whether `pkcs8_private_keys` finds a key, and whether
`with_client_auth_cert` accepts the material. -/
structure PemFile where
  caAddOk : List Bool
  hasPkcs8Key : Bool
  clientAuthOk : Bool
deriving DecidableEq, Repr

/-- Outcome of the TLS-setup block: no TLS configured at all, a rustls TLS
transport (with whether the missing-CA warning was printed and whether
mutual auth is enabled), or `process::exit(1)`. -/
inductive TlsOutcome
  | noTls
  | tls (warnedMissingCa : Bool) (mutualAuth : Bool)
  | fatal
deriving DecidableEq, Repr

/-- The client-auth half of the TLS block (main.rs lines 98-132):
with a `client_combined_path`, an unreadable file, a PEM with no PKCS8
private key, or a rejected cert/key pair each exit the process; otherwise
mutual TLS is configured. Without the path, TLS with no client auth. -/
def setupClient (cp : Option String) (fsRead : String → Option PemFile)
    (warned : Bool) : TlsOutcome :=
  match cp with
  | none => TlsOutcome.tls warned false
  | some p =>
    match fsRead p with
    | none => TlsOutcome.fatal
    | some pem =>
      if pem.hasPkcs8Key then
        if pem.clientAuthOk then TlsOutcome.tls warned true
        else TlsOutcome.fatal
      else TlsOutcome.fatal

/-- The TLS-setup block of main.rs lines 74-136. It runs only when the
scheme is exactly `"ssl"` or `"mqtts"`. A configured CA path that cannot
be read, or a CA certificate rejected by `RootCertStore::add`, exits the
process; an absent CA path only prints a warning. Then client auth is
prepared by `setupClient`. Any other scheme skips the whole block. -/
def setupTransport (scheme ca cp : Option String)
    (fsRead : String → Option PemFile) : TlsOutcome :=
  if scheme = some "ssl" ∨ scheme = some "mqtts" then
    match ca with
    | some p =>
      match fsRead p with
      | none => TlsOutcome.fatal
      | some pem =>
        if pem.caAddOk.all (fun b => b) then setupClient cp fsRead false
        else TlsOutcome.fatal
    | none => setupClient cp fsRead true
  else TlsOutcome.noTls

/-- The whole observable run of `main` after config load: TLS setup (exit
modelled as `none`), then QoS normalization (exit modelled as `none`),
then one subscription per topic, then the event loop over the poll trace,
then the final line when the loop broke. Returns the action trace and
whether the loop exited. -/
def mainRun (scheme ca cp : Option String) (fsRead : String → Option PemFile)
    (topics : List String) (qos : List Int) (polls : List PollResult) :
    Option (List Act × Bool) :=
  if setupTransport scheme ca cp fsRead = TlsOutcome.fatal then none
  else
    match actual_qos topics qos with
    | none => none
    | some aq =>
      some ((subscribe_topics topics aq).map
              (fun tq => Act.subscribe tq.1 tq.2)
            ++ runLoop polls
            ++ (if runLoopExits polls then [Act.printDone] else []),
            runLoopExits polls)

/-- Is this action a subscription? -/
def isSubscribeA : Act → Bool
  | Act.subscribe _ _ => true
  | _ => false

/-- Is this action a surfaced message? -/
def isSurfaceA : Act → Bool
  | Act.surface _ _ _ => true
  | _ => false

/-- Is this action a shutdown-cleanup action (`unsubscribe` or
`disconnect`)? -/
def isCleanupA : Act → Bool
  | Act.unsubscribe _ => true
  | Act.disconnect => true
  | _ => false

/-- Is this poll result an incoming publish? -/
def isPublishPoll : PollResult → Bool
  | PollResult.ok (Event.incoming (Packet.publish _ _ _)) => true
  | _ => false

lemma mapQoS_valid (q : Int) (h : q = 0 ∨ q = 1 ∨ q = 2) :
    mapQoS q = some (qosOfInt q) := by
  rcases h with h | h | h <;> subst h <;> rfl

lemma mapQoS_invalid (q : Int) (h : ¬(q = 0 ∨ q = 1 ∨ q = 2)) :
    mapQoS q = none := by
  push_neg at h
  simp [mapQoS, h.1, h.2.1, h.2.2]

lemma mapQoSList_valid (l : List Int) (h : ∀ q ∈ l, q = 0 ∨ q = 1 ∨ q = 2) :
    mapQoSList l = some (l.map qosOfInt) := by
  induction l with
  | nil => rfl
  | cons q rest ih =>
    have hq := h q (List.mem_cons_self q rest)
    have hrest := ih (fun x hx => h x (List.mem_cons_of_mem q hx))
    simp [mapQoSList, mapQoS_valid q hq, hrest]

lemma mapQoSList_invalid (l : List Int) (h : ∃ q ∈ l, ¬(q = 0 ∨ q = 1 ∨ q = 2)) :
    mapQoSList l = none := by
  induction l with
  | nil => simp at h
  | cons q rest ih =>
    rcases h with ⟨x, hx, hxbad⟩
    rcases List.mem_cons.mp hx with rfl | hmem
    · simp [mapQoSList, mapQoS_invalid x hxbad]
    · have := ih ⟨x, hmem, hxbad⟩
      simp [mapQoSList, this]
      cases mapQoS q <;> simp

/-- Claim C1, counterexample: the claim says that for T = 0 the
normalizer's output is empty for every Q, and that for Q ≥ T it is the
first T elements of `qos` mapped (hence has exactly T entries). With
`topics = []` and `qos = [0]` (T = 0, Q = 1, all values in 0,1,2) the
program takes the final branch and maps the whole list: the output has
one entry, not zero. -/
theorem c1_counterexample :
    actual_qos [] [(0 : Int)] = some [QoS.atMostOnce] ∧
    actual_qos [] [(0 : Int)] ≠ some [] := by
  decide

/-- Claim C1 (amended): for every configuration whose qos values all lie
in 0,1,2 and with Q ≥ T, the normalizer maps the WHOLE `qos` list, so the
output has Q entries (not T); its first T entries are the mapped first T
elements of `qos`, and when T = 0 the output is the whole mapped list,
empty only when Q = 0. -/
theorem c1_normalizer_maps_whole_list (topics : List String) (qos : List Int)
    (hvalid : ∀ q ∈ qos, q = 0 ∨ q = 1 ∨ q = 2)
    (hlen : topics.length ≤ qos.length) :
    actual_qos topics qos = some (qos.map qosOfInt) ∧
    (qos.map qosOfInt).length = qos.length ∧
    (qos.map qosOfInt).take topics.length
      = (qos.take topics.length).map qosOfInt := by
  refine ⟨?_, by simp, (List.map_take qosOfInt qos topics.length).symm⟩
  unfold actual_qos
  have h1 : ¬(qos.length < topics.length ∧ qos ≠ []) := by
    intro hcontra
    omega
  rw [if_neg h1]
  by_cases hq : qos = []
  · subst hq
    have htop : topics = [] := by
      cases topics with
      | nil => rfl
      | cons t ts => simp at hlen
    subst htop
    simp [mapQoSList]
  · rw [if_neg (by tauto)]
    exact mapQoSList_valid qos hvalid

/-- Claim C1 witness: a concrete Q ≥ T configuration. -/
theorem c1_witness :
    actual_qos ["a"] [(0 : Int), 1] = some [QoS.atMostOnce, QoS.atLeastOnce] := by
  have h := c1_normalizer_maps_whole_list ["a"] [(0 : Int), 1]
    (by decide) (by decide)
  simpa using h.1

/-- Claim C4: with 0 < Q < T and `qos[0]` in 0,1,2, the normalizer maps
`qos[0]` only and replicates that level across all T topics (values past
index 0 cannot influence the result, which depends only on `qos.headI`
and the lengths); and with Q = 0 and T > 0 every topic gets
`AtMostOnce`. -/
theorem c4_replication_and_default :
    (∀ (topics : List String) (qos : List Int),
      qos ≠ [] → qos.length < topics.length →
      (qos.headI = 0 ∨ qos.headI = 1 ∨ qos.headI = 2) →
      actual_qos topics qos
        = some (List.replicate topics.length (qosOfInt qos.headI))) ∧
    (∀ topics : List String, topics ≠ [] →
      actual_qos topics [] = some (List.replicate topics.length QoS.atMostOnce)) := by
  constructor
  · intro topics qos hne hlt hvalid
    unfold actual_qos
    rw [if_pos ⟨hlt, hne⟩, mapQoS_valid qos.headI hvalid]
    rfl
  · intro topics hne
    unfold actual_qos
    rw [if_neg (by simp), if_pos ⟨rfl, hne⟩]

/-- Claim C4 witness: concrete 0 < Q < T and Q = 0 < T configurations. -/
theorem c4_witness :
    actual_qos ["a", "b", "c"] [(1 : Int)]
      = some [QoS.atLeastOnce, QoS.atLeastOnce, QoS.atLeastOnce] ∧
    actual_qos ["a"] ([] : List Int) = some [QoS.atMostOnce] := by
  constructor
  · have h := c4_replication_and_default.1 ["a", "b", "c"] [(1 : Int)]
      (by simp) (by simp) (by decide)
    simpa using h
  · have h := c4_replication_and_default.2 ["a"] (by simp)
    simpa using h

/-- Claim C5, counterexample: the claim says any qos value outside 0,1,2
anywhere in the list is fatal. With `topics = ["a","b","c"]` and
`qos = [0, 7]` (the invalid 7 sits at index 1 in the 0 < Q < T branch)
the program validates only `qos[0]` and succeeds, silently ignoring 7. -/
theorem c5_counterexample :
    actual_qos ["a", "b", "c"] [(0 : Int), 7]
      = some [QoS.atMostOnce, QoS.atMostOnce, QoS.atMostOnce] ∧
    ¬((7 : Int) = 0 ∨ (7 : Int) = 1 ∨ (7 : Int) = 2) ∧
    actual_qos ["a", "b", "c"] [(0 : Int), 7] ≠ none := by
  decide

/-- Claim C5 (amended): an out-of-range value in the slice the program
actually validates — `qos[0]` alone when 0 < Q < T, the whole list
otherwise — is a fatal configuration error (the process exits, modelled
`none`): no output is produced, so no default is ever substituted for a
validated invalid value. Values outside the validated slice are ignored. -/
theorem c5_invalid_validated_fatal (topics : List String) (qos : List Int)
    (h : ∃ q ∈ validatedSlice topics qos, ¬(q = 0 ∨ q = 1 ∨ q = 2)) :
    actual_qos topics qos = none := by
  unfold validatedSlice at h
  unfold actual_qos
  by_cases hc : qos.length < topics.length ∧ qos ≠ []
  · rw [if_pos hc] at h
    rw [if_pos hc]
    obtain ⟨q, hq, hbad⟩ := h
    cases qos with
    | nil => exact absurd rfl hc.2
    | cons q0 rest =>
      simp [List.take] at hq
      subst hq
      simp [List.headI]
      exact mapQoS_invalid _ hbad
  · rw [if_neg hc] at h
    rw [if_neg hc]
    by_cases h2 : qos = [] ∧ topics ≠ []
    · obtain ⟨rfl, -⟩ := h2
      simp at h
    · rw [if_neg h2]
      exact mapQoSList_invalid qos h

/-- Claim C5 witness: a concrete invalid value inside the validated
slice is fatal. -/
theorem c5_witness :
    validatedSlice ["a"] [(7 : Int)] = [7] ∧
    actual_qos ["a"] [(7 : Int)] = none := by
  refine ⟨by decide, ?_⟩
  exact c5_invalid_validated_fatal ["a"] [(7 : Int)] ⟨7, by decide, by decide⟩

lemma loopStep_breaks_iff (r : PollResult) :
    (loopStep r).2 = true ↔ r = PollResult.ok Event.outgoingDisconnect := by
  cases r with
  | ok e =>
    cases e with
    | incoming p => cases p <;> simp [loopStep]
    | outgoingDisconnect => simp [loopStep]
    | outgoingOther => simp [loopStep]
  | err m =>
    simp only [loopStep]
    split <;> simp

lemma runLoopExits_iff (polls : List PollResult) :
    runLoopExits polls = true ↔ PollResult.ok Event.outgoingDisconnect ∈ polls := by
  induction polls with
  | nil => simp [runLoopExits]
  | cons r rest ih =>
    by_cases hr : r = PollResult.ok Event.outgoingDisconnect
    · subst hr
      simp [runLoopExits, loopStep]
    · have hb : (loopStep r).2 = false := by
        rcases Bool.eq_false_or_eq_true (loopStep r).2 with h | h
        · exact absurd ((loopStep_breaks_iff r).mp h) hr
        · exact h
      simp [runLoopExits, hb, ih, List.mem_cons, hr, Ne.symm hr]

lemma runLoop_err_cons (e : String) (rest : List PollResult) :
    runLoop (PollResult.err e :: rest)
      = (if strContains e "disconnected" then
           [Act.logReconnecting, Act.sleep 5]
         else [Act.logError e, Act.sleep 1]) ++ runLoop rest := by
  simp only [runLoop, loopStep]
  split <;> simp

lemma runLoopExits_err_cons (e : String) (rest : List PollResult) :
    runLoopExits (PollResult.err e :: rest) = runLoopExits rest := by
  simp only [runLoopExits, loopStep]
  split <;> simp

lemma loopStep_mem_shape (r : PollResult) (a : Act) (ha : a ∈ (loopStep r).1) :
    isSubscribeA a = false ∧ isCleanupA a = false := by
  cases r with
  | ok e =>
    cases e with
    | incoming p =>
      cases p with
      | publish t pl q =>
        simp [loopStep] at ha
        subst ha
        simp [isSubscribeA, isCleanupA]
      | connAck =>
        simp [loopStep] at ha
        subst ha
        simp [isSubscribeA, isCleanupA]
      | other => simp [loopStep] at ha
    | outgoingDisconnect =>
      simp [loopStep] at ha
      subst ha
      simp [isSubscribeA, isCleanupA]
    | outgoingOther => simp [loopStep] at ha
  | err m =>
    simp only [loopStep] at ha
    split at ha <;> simp at ha <;>
      rcases ha with rfl | rfl <;> simp [isSubscribeA, isCleanupA]

lemma runLoop_mem_shape (polls : List PollResult) (a : Act)
    (ha : a ∈ runLoop polls) : isSubscribeA a = false ∧ isCleanupA a = false := by
  induction polls with
  | nil => simp [runLoop] at ha
  | cons r rest ih =>
    simp only [runLoop] at ha
    split at ha
    · exact loopStep_mem_shape r a ha
    · rcases List.mem_append.mp ha with h | h
      · exact loopStep_mem_shape r a h
      · exact ih h

lemma runLoop_countP_subscribe (polls : List PollResult) :
    (runLoop polls).countP (fun a => isSubscribeA a) = 0 := by
  rw [List.countP_eq_zero]
  intro a ha
  simp [(runLoop_mem_shape polls a ha).1]

lemma runLoop_countP_cleanup (polls : List PollResult) :
    (runLoop polls).countP (fun a => isCleanupA a) = 0 := by
  rw [List.countP_eq_zero]
  intro a ha
  simp [(runLoop_mem_shape polls a ha).2]

lemma runLoop_replicate_err (n : Nat) (e : String)
    (h : strContains e "disconnected" = true) :
    runLoop (List.replicate n (PollResult.err e))
      = (List.replicate n [Act.logReconnecting, Act.sleep 5]).flatten ∧
    runLoopExits (List.replicate n (PollResult.err e)) = false := by
  induction n with
  | zero => simp [runLoop, runLoopExits]
  | succ k ih =>
    simp only [List.replicate_succ]
    rw [runLoop_err_cons, runLoopExits_err_cons, if_pos h]
    simp [ih.1, ih.2]

/-- Claim C2, counterexample: the claim says that after 12 consecutive
failed reconnect attempts the process terminates. In the program, 12
consecutive poll errors classified as disconnection leave the loop still
running (it has not exited), and a 13th identical failure is consumed
exactly like the first twelve — each one logging and sleeping 5 seconds,
with no attempt counter anywhere. -/
theorem c2_counterexample :
    runLoopExits (List.replicate 12 (PollResult.err "connection disconnected"))
      = false ∧
    runLoop (List.replicate 13 (PollResult.err "connection disconnected"))
      = (List.replicate 13 [Act.logReconnecting, Act.sleep 5]).flatten ∧
    runLoopExits (List.replicate 13 (PollResult.err "connection disconnected"))
      = false := by
  decide

/-- Claim C2 (amended): upon detecting loss of an established connection
the program sleeps a fixed 5 seconds and polls again, with NO bound on
the number of attempts: any number of consecutive disconnection-classified
failures leaves the loop running, and the event loop exits only when an
outgoing-disconnect acknowledgment is polled — never by exhausting
reconnect attempts. -/
theorem c2_unbounded_reconnect :
    (∀ polls, runLoopExits polls = true
        ↔ PollResult.ok Event.outgoingDisconnect ∈ polls) ∧
    (∀ (n : Nat) (e : String), strContains e "disconnected" = true →
      runLoop (List.replicate n (PollResult.err e))
        = (List.replicate n [Act.logReconnecting, Act.sleep 5]).flatten ∧
      runLoopExits (List.replicate n (PollResult.err e)) = false) := by
  exact ⟨runLoopExits_iff, fun n e h => runLoop_replicate_err n e h⟩

/-- Claim C2 witness: two concrete consecutive failures sleep 5 seconds
each and do not terminate the loop. -/
theorem c2_witness :
    runLoop (List.replicate 2 (PollResult.err "disconnected"))
      = [Act.logReconnecting, Act.sleep 5, Act.logReconnecting, Act.sleep 5] ∧
    runLoopExits (List.replicate 2 (PollResult.err "disconnected")) = false := by
  have h := c2_unbounded_reconnect.2 2 "disconnected" (by decide)
  exact ⟨by rw [h.1]; decide, h.2⟩

lemma mainRun_inv (scheme ca cp : Option String)
    (fsRead : String → Option PemFile) (topics : List String)
    (qos : List Int) (polls : List PollResult) (tr : List Act) (ex : Bool)
    (h : mainRun scheme ca cp fsRead topics qos polls = some (tr, ex)) :
    ∃ aq, actual_qos topics qos = some aq ∧
      tr = (subscribe_topics topics aq).map (fun tq => Act.subscribe tq.1 tq.2)
           ++ runLoop polls
           ++ (if runLoopExits polls then [Act.printDone] else []) ∧
      ex = runLoopExits polls := by
  unfold mainRun at h
  by_cases hf : setupTransport scheme ca cp fsRead = TlsOutcome.fatal
  · simp [hf] at h
  · rw [if_neg hf] at h
    cases haq : actual_qos topics qos with
    | none => rw [haq] at h; simp at h
    | some aq =>
      rw [haq] at h
      simp only [Option.some.injEq, Prod.mk.injEq] at h
      exact ⟨aq, rfl, h.1.symm, h.2.symm⟩

lemma subscribe_topics_length (topics : List String) (aq : List QoS) :
    (subscribe_topics topics aq).length = topics.length := by
  simp [subscribe_topics]

lemma subs_countP_subscribe (topics : List String) (aq : List QoS) :
    ((subscribe_topics topics aq).map (fun tq => Act.subscribe tq.1 tq.2)).countP
      (fun a => isSubscribeA a) = topics.length := by
  have hall : ∀ a ∈ (subscribe_topics topics aq).map
      (fun tq => Act.subscribe tq.1 tq.2), isSubscribeA a = true := by
    intro a ha
    rcases List.mem_map.mp ha with ⟨x, -, rfl⟩
    rfl
  rw [List.countP_eq_length.mpr hall, List.length_map, subscribe_topics_length]

lemma subs_countP_cleanup (topics : List String) (aq : List QoS) :
    ((subscribe_topics topics aq).map (fun tq => Act.subscribe tq.1 tq.2)).countP
      (fun a => isCleanupA a) = 0 := by
  rw [List.countP_eq_zero]
  intro a ha
  rcases List.mem_map.mp ha with ⟨x, -, rfl⟩
  simp [isCleanupA]

lemma tail_countP_subscribe (ex : Bool) :
    ((if ex = true then [Act.printDone] else []) : List Act).countP
      (fun a => isSubscribeA a) = 0 := by
  cases ex <;> simp [isSubscribeA]

lemma tail_countP_cleanup (ex : Bool) :
    ((if ex = true then [Act.printDone] else []) : List Act).countP
      (fun a => isCleanupA a) = 0 := by
  cases ex <;> simp [isCleanupA]

/-- Claim C3, counterexample: a connection loss (an error classified as
disconnection) followed by a successful reconnect (the next `ConnAck`)
produces only the reconnect log, the 5-second sleep and the connected
line — the trace contains zero subscribe actions, so no subscription is
re-issued before the loop resumes consuming. -/
theorem c3_counterexample :
    runLoop [PollResult.err "connection disconnected",
             PollResult.ok (Event.incoming Packet.connAck)]
      = [Act.logReconnecting, Act.sleep 5, Act.printConnected] ∧
    (runLoop [PollResult.err "connection disconnected",
              PollResult.ok (Event.incoming Packet.connAck)]).countP
        (fun a => isSubscribeA a) = 0 := by
  decide

/-- Claim C3 (amended): subscriptions are issued exactly once, before the
event loop starts: the loop body never emits a subscribe action (in
particular not after a reconnect), and any completed run subscribes
exactly `topics.length` times in total — all from the initial
`subscribe_topics` call, with no recomputation afterwards. -/
theorem c3_no_resubscription :
    (∀ polls (t : String) (q : QoS), Act.subscribe t q ∉ runLoop polls) ∧
    (∀ scheme ca cp fsRead topics qos polls tr ex,
      mainRun scheme ca cp fsRead topics qos polls = some (tr, ex) →
      tr.countP (fun a => isSubscribeA a) = topics.length) := by
  constructor
  · intro polls t q hmem
    have hshape := (runLoop_mem_shape polls _ hmem).1
    simp [isSubscribeA] at hshape
  · intro scheme ca cp fsRead topics qos polls tr ex h
    obtain ⟨aq, -, rfl, -⟩ :=
      mainRun_inv scheme ca cp fsRead topics qos polls tr ex h
    rw [List.countP_append, List.countP_append, subs_countP_subscribe,
      runLoop_countP_subscribe, tail_countP_subscribe]
    omega

/-- Claim C3 witness: a completed concrete run subscribes exactly once
for its one topic. -/
theorem c3_witness :
    ([Act.subscribe "t" QoS.atLeastOnce] : List Act).countP
      (fun a => isSubscribeA a) = (["t"] : List String).length := by
  exact c3_no_resubscription.2 none none none (fun _ => none) ["t"]
    [(1 : Int)] [] [Act.subscribe "t" QoS.atLeastOnce] false (by decide)

/-- Claim C6, counterexample: a run in which the loop exits via the
outgoing-disconnect acknowledgment while a connection had been
acknowledged produces exactly the subscribe, the connect line, the
disconnect line and the final line — it contains no unsubscribe and no
disconnect action before process exit. -/
theorem c6_counterexample :
    mainRun none none none (fun _ => none) ["t"] [(0 : Int)]
        [PollResult.ok (Event.incoming Packet.connAck),
         PollResult.ok Event.outgoingDisconnect]
      = some ([Act.subscribe "t" QoS.atMostOnce, Act.printConnected,
               Act.printDisconnected, Act.printDone], true) ∧
    ([Act.subscribe "t" QoS.atMostOnce, Act.printConnected,
      Act.printDisconnected, Act.printDone] : List Act).countP
        (fun a => isCleanupA a) = 0 := by
  decide

/-- Claim C6 (amended): when the event loop exits, the program prints the
final line and terminates without any cleanup: no run of the program ever
contains an unsubscribe or a disconnect action — no such call exists in
the code. -/
theorem c6_no_cleanup (scheme ca cp : Option String)
    (fsRead : String → Option PemFile) (topics : List String)
    (qos : List Int) (polls : List PollResult) (tr : List Act) (ex : Bool)
    (h : mainRun scheme ca cp fsRead topics qos polls = some (tr, ex)) :
    tr.countP (fun a => isCleanupA a) = 0 := by
  obtain ⟨aq, -, rfl, -⟩ :=
    mainRun_inv scheme ca cp fsRead topics qos polls tr ex h
  rw [List.countP_append, List.countP_append, subs_countP_cleanup,
    runLoop_countP_cleanup, tail_countP_cleanup]

/-- Claim C6 witness: the cleanup count is zero on a concrete completed
run that exits the loop. -/
theorem c6_witness :
    ([Act.subscribe "t" QoS.atMostOnce, Act.printConnected,
      Act.printDisconnected, Act.printDone] : List Act).countP
        (fun a => isCleanupA a) = 0 := by
  exact c6_no_cleanup none none none (fun _ => none) ["t"] [(0 : Int)]
    [PollResult.ok (Event.incoming Packet.connAck),
     PollResult.ok Event.outgoingDisconnect]
    [Act.subscribe "t" QoS.atMostOnce, Act.printConnected,
     Act.printDisconnected, Act.printDone] true (by decide)

lemma utf8Lossy_ascii (p : List Nat) (h : ∀ b ∈ p, b < 128) : utf8Lossy p = p := by
  induction p with
  | nil => simp [utf8Lossy]
  | cons b rest ih =>
    have hb : b < 128 := h b (List.mem_cons_self b rest)
    rw [utf8Lossy.eq_def]
    simp only [if_pos hb]
    rw [ih (fun x hx => h x (List.mem_cons_of_mem b hx))]

lemma runLoop_publish_cons (t : String) (p : List Nat) (q : QoS)
    (rest : List PollResult) :
    runLoop (PollResult.ok (Event.incoming (Packet.publish t p q)) :: rest)
      = Act.surface t (utf8Lossy p) q :: runLoop rest := by
  simp [runLoop, loopStep]

lemma loopStep_countP_surface (r : PollResult) :
    (loopStep r).1.countP (fun a => isSurfaceA a)
      = if isPublishPoll r = true then 1 else 0 := by
  cases r with
  | ok e =>
    cases e with
    | incoming p =>
      cases p <;> simp [loopStep, isPublishPoll, isSurfaceA, List.countP_cons]
    | outgoingDisconnect =>
      simp [loopStep, isPublishPoll, isSurfaceA, List.countP_cons]
    | outgoingOther => simp [loopStep, isPublishPoll]
  | err m =>
    simp only [loopStep]
    split <;> simp [isPublishPoll, isSurfaceA, List.countP_cons]

lemma runLoop_countP_surface (polls : List PollResult)
    (h : runLoopExits polls = false) :
    (runLoop polls).countP (fun a => isSurfaceA a)
      = polls.countP (fun r => isPublishPoll r) := by
  induction polls with
  | nil => simp [runLoop]
  | cons r rest ih =>
    cases hb : (loopStep r).2 with
    | true => simp [runLoopExits, hb] at h
    | false =>
      simp only [runLoopExits, hb] at h
      simp only [runLoop, hb]
      rw [if_neg (by simp), List.countP_append, loopStep_countP_surface,
        List.countP_cons, ih (by simpa using h)]
      by_cases hp : isPublishPoll r = true
      · simp [hp]
        omega
      · simp [hp]

/-- Claim C7, counterexample: the claim says topic, payload bytes and QoS
are surfaced without any transformation for every possible payload byte
sequence. The payload `[255]` is not valid UTF-8, and the program prints
it through `String::from_utf8_lossy`: the surfaced bytes are the U+FFFD
replacement `[239, 191, 189]`, not the original `[255]`. -/
theorem c7_counterexample :
    runLoop [PollResult.ok (Event.incoming
        (Packet.publish "t/1" [255] QoS.atLeastOnce))]
      = [Act.surface "t/1" [239, 191, 189] QoS.atLeastOnce] ∧
    ([239, 191, 189] : List Nat) ≠ [255] := by
  constructor
  · rw [runLoop_publish_cons]
    simp [runLoop, utf8Lossy, replBytes]
  · simp

/-- Claim C7 (amended): each incoming publish event consumed by the loop
is surfaced exactly once, with topic and QoS unmodified and the payload
passed through the lossy UTF-8 decoding — which leaves the payload bytes
unchanged whenever they are plain ASCII (such as the specification's
example `b"hello"`): the count of surfaced messages equals the count of
publish events over any trace the loop fully consumes. -/
theorem c7_surface_exactly_once :
    (∀ (t : String) (p : List Nat) (q : QoS) (rest : List PollResult),
      runLoop (PollResult.ok (Event.incoming (Packet.publish t p q)) :: rest)
        = Act.surface t (utf8Lossy p) q :: runLoop rest) ∧
    (∀ polls, runLoopExits polls = false →
      (runLoop polls).countP (fun a => isSurfaceA a)
        = polls.countP (fun r => isPublishPoll r)) ∧
    (∀ p : List Nat, (∀ b ∈ p, b < 128) → utf8Lossy p = p) := by
  exact ⟨runLoop_publish_cons, runLoop_countP_surface, utf8Lossy_ascii⟩

/-- Claim C7 witness: the specification's own example — topic `"t/1"`,
payload `b"hello"`, QoS 1 — is surfaced exactly once and unmodified. -/
theorem c7_witness :
    runLoop [PollResult.ok (Event.incoming
        (Packet.publish "t/1" [104, 101, 108, 108, 111] QoS.atLeastOnce))]
      = [Act.surface "t/1" [104, 101, 108, 108, 111] QoS.atLeastOnce] := by
  have h1 := c7_surface_exactly_once.1 "t/1" [104, 101, 108, 108, 111]
    QoS.atLeastOnce []
  have h2 := c7_surface_exactly_once.2.2 [104, 101, 108, 108, 111] (by decide)
  rw [h1, h2]
  simp [runLoop]

/-- Claim C8, counterexample: the claim says a failed initial connection
attempt makes the process report the error and exit with no retry. In the
program a connection-refused error (not classified as disconnection) does
not exit the loop: it is logged, the loop sleeps 1 second and polls
again — the subsequent `ConnAck` here is processed normally, so the
connection was retried rather than the process exiting. -/
theorem c8_counterexample :
    runLoopExits [PollResult.err "Connection refused (os error 111)"] = false ∧
    runLoop [PollResult.err "Connection refused (os error 111)",
             PollResult.ok (Event.incoming Packet.connAck)]
      = [Act.logError "Connection refused (os error 111)", Act.sleep 1,
         Act.printConnected] := by
  decide

/-- Claim C8 (amended): a failure of the initial connection attempt
surfaces as a poll error and is handled exactly like any later error:
logged, followed by a fixed sleep (5 seconds when the error string
contains "disconnected", 1 second otherwise) and another poll — which
retries the connection. Poll errors never terminate the loop, no matter
how many occur, before or after the first successful connection. -/
theorem c8_initial_failure_not_fatal :
    (∀ (e : String) (rest : List PollResult),
      runLoop (PollResult.err e :: rest)
        = (if strContains e "disconnected" then
             [Act.logReconnecting, Act.sleep 5]
           else [Act.logError e, Act.sleep 1]) ++ runLoop rest) ∧
    (∀ (e : String) (rest : List PollResult),
      runLoopExits (PollResult.err e :: rest) = runLoopExits rest) ∧
    (∀ (n : Nat) (e : String),
      runLoopExits (List.replicate n (PollResult.err e)) = false) := by
  refine ⟨runLoop_err_cons, runLoopExits_err_cons, ?_⟩
  intro n e
  induction n with
  | zero => simp [runLoopExits]
  | succ k ih =>
    rw [List.replicate_succ, runLoopExits_err_cons]
    exact ih

lemma setupClient_read_fail (p : String) (fsRead : String → Option PemFile)
    (warned : Bool) (hfs : fsRead p = none) :
    setupClient (some p) fsRead warned = TlsOutcome.fatal := by
  simp [setupClient, hfs]

lemma setupClient_no_key (p : String) (fsRead : String → Option PemFile)
    (warned : Bool) (pem : PemFile) (hfs : fsRead p = some pem)
    (hk : pem.hasPkcs8Key = false) :
    setupClient (some p) fsRead warned = TlsOutcome.fatal := by
  simp [setupClient, hfs, hk]

lemma setupTransport_enc (scheme ca cp : Option String)
    (fsRead : String → Option PemFile)
    (henc : scheme = some "ssl" ∨ scheme = some "mqtts") :
    setupTransport scheme ca cp fsRead = TlsOutcome.fatal ∨
    ∃ w : Bool, setupTransport scheme ca cp fsRead = setupClient cp fsRead w := by
  unfold setupTransport
  rw [if_pos henc]
  cases ca with
  | none => exact Or.inr ⟨true, by simp⟩
  | some pca =>
    cases hca : fsRead pca with
    | none => exact Or.inl (by simp [hca])
    | some pem =>
      by_cases hall : pem.caAddOk.all (fun b => b) = true
      · exact Or.inr ⟨false, by simp [hca, hall]⟩
      · exact Or.inl (by simp [hca, hall])

lemma setupClient_ne_noTls (cp : Option String)
    (fsRead : String → Option PemFile) (warned : Bool) :
    setupClient cp fsRead warned ≠ TlsOutcome.noTls := by
  cases cp with
  | none => simp [setupClient]
  | some p =>
    cases hfs : fsRead p with
    | none => simp [setupClient, hfs]
    | some pem =>
      by_cases hk : pem.hasPkcs8Key = true
      · by_cases ha : pem.clientAuthOk = true
        · simp [setupClient, hfs, hk, ha]
        · simp [setupClient, hfs, hk, ha]
      · simp [setupClient, hfs, hk]

/-- Claim C9: under an encrypted scheme ("ssl" or "mqtts") a missing
`ca_cert_path` leads only to the non-fatal warning (with no client path
the transport is configured as TLS with the warning flag set and the run
proceeds), whereas a `client_combined_path` whose file cannot be read, or
whose PEM contains no PKCS8 private key, makes the process exit
(`fatal`) — and a fatal TLS setup yields no run at all: the process stops
before any subscription or polling. -/
theorem c9_tls_material_errors (scheme ca cp : Option String)
    (fsRead : String → Option PemFile)
    (henc : scheme = some "ssl" ∨ scheme = some "mqtts") :
    (ca = none → cp = none →
      setupTransport scheme ca cp fsRead = TlsOutcome.tls true false) ∧
    (∀ p, cp = some p → fsRead p = none →
      setupTransport scheme ca cp fsRead = TlsOutcome.fatal) ∧
    (∀ p pem, cp = some p → fsRead p = some pem → pem.hasPkcs8Key = false →
      setupTransport scheme ca cp fsRead = TlsOutcome.fatal) ∧
    (∀ topics qos polls,
      setupTransport scheme ca cp fsRead = TlsOutcome.fatal →
      mainRun scheme ca cp fsRead topics qos polls = none) := by
  refine ⟨?_, ?_, ?_, ?_⟩
  · rintro rfl rfl
    unfold setupTransport
    rw [if_pos henc]
    simp [setupClient]
  · rintro p rfl hfs
    rcases setupTransport_enc scheme ca (some p) fsRead henc with hf | ⟨w, hw⟩
    · exact hf
    · rw [hw]
      exact setupClient_read_fail p fsRead w hfs
  · rintro p pem rfl hfs hk
    rcases setupTransport_enc scheme ca (some p) fsRead henc with hf | ⟨w, hw⟩
    · exact hf
    · rw [hw]
      exact setupClient_no_key p fsRead w pem hfs hk
  · intro topics qos polls hf
    unfold mainRun
    rw [if_pos hf]

/-- Claim C9 witness: concrete encrypted-scheme configurations — missing
CA path alone warns and proceeds; an unreadable client file, or a client
PEM with no PKCS8 key, is fatal before any subscription or polling. -/
theorem c9_witness :
    setupTransport (some "ssl") none none (fun _ => none)
      = TlsOutcome.tls true false ∧
    setupTransport (some "ssl") none (some "client.pem") (fun _ => none)
      = TlsOutcome.fatal ∧
    setupTransport (some "mqtts") none (some "client.pem")
        (fun _ => some (PemFile.mk [] false true)) = TlsOutcome.fatal ∧
    mainRun (some "ssl") none (some "client.pem") (fun _ => none)
      ["t"] [(0 : Int)] [] = none := by
  refine ⟨?_, ?_, ?_, ?_⟩
  · exact (c9_tls_material_errors (some "ssl") none none (fun _ => none)
      (Or.inl rfl)).1 rfl rfl
  · exact (c9_tls_material_errors (some "ssl") none (some "client.pem")
      (fun _ => none) (Or.inl rfl)).2.1 "client.pem" rfl rfl
  · exact (c9_tls_material_errors (some "mqtts") none (some "client.pem")
      (fun _ => some (PemFile.mk [] false true)) (Or.inr rfl)).2.2.1
      "client.pem" (PemFile.mk [] false true) rfl rfl rfl
  · exact (c9_tls_material_errors (some "ssl") none (some "client.pem")
      (fun _ => none) (Or.inl rfl)).2.2.2 ["t"] [(0 : Int)] []
      ((c9_tls_material_errors (some "ssl") none (some "client.pem")
        (fun _ => none) (Or.inl rfl)).2.1 "client.pem" rfl rfl)

/-- Claim C10: the TLS-configuration path is taken exactly when the
scheme is the exact string "ssl" or "mqtts" — for every other value
(including "tcp", "tls", "SSL", or no scheme at all) the whole block is
skipped: the run proceeds unencrypted (`noTls`), with no warning and no
error, whatever the certificate paths or file contents are. -/
theorem c10_tls_iff_exact_scheme (scheme ca cp : Option String)
    (fsRead : String → Option PemFile) :
    (setupTransport scheme ca cp fsRead = TlsOutcome.noTls
      ↔ ¬(scheme = some "ssl" ∨ scheme = some "mqtts")) ∧
    setupTransport (some "tcp") ca cp fsRead = TlsOutcome.noTls ∧
    setupTransport (some "tls") ca cp fsRead = TlsOutcome.noTls ∧
    setupTransport (some "SSL") ca cp fsRead = TlsOutcome.noTls ∧
    setupTransport none ca cp fsRead = TlsOutcome.noTls := by
  refine ⟨⟨?_, ?_⟩, ?_, ?_, ?_, ?_⟩
  · intro h henc
    rcases setupTransport_enc scheme ca cp fsRead henc with hf | ⟨w, hw⟩
    · rw [h] at hf
      exact TlsOutcome.noConfusion hf
    · rw [h] at hw
      exact setupClient_ne_noTls cp fsRead w hw.symm
  · intro hn
    unfold setupTransport
    rw [if_neg hn]
  · unfold setupTransport
    rw [if_neg (by decide)]
  · unfold setupTransport
    rw [if_neg (by decide)]
  · unfold setupTransport
    rw [if_neg (by decide)]
  · unfold setupTransport
    rw [if_neg (by decide)]
